import Mathlib

/-!
Shallow embedding of `kubernetes/controllers/pod.go` from the gridai/elastic
repository (the TorchElastic Kubernetes operator controllers), together with
theorems settling the specification claims about it.

External collaborators (the cluster object store, the desired-replica oracle
`computeDesiredReplicas`, the label-generation function `GenLabels`) are
modelled as function parameters, matching the spec's treatment of them as
opaque collaborators.  Strings are modelled at the character level (claim
names are ASCII DNS labels, where Go's byte indices and character indices
coincide).
-/

namespace Elastic

/-- The `v1alpha1.ElasticJobSpec` fields read by `pod.go`:
`MinReplicas *int32`, `MaxReplicas *int32`, `RdzvEndpoint string`.
Go's nil-able pointers become `Option`; `int32` values are modelled as `Int`
(the code only copies and prints them, it never does arithmetic on them). -/
structure ElasticJobSpec where
  rdzvEndpoint : String
  minReplicas : Option Int
  maxReplicas : Option Int
deriving DecidableEq

/-- The `v1alpha1.ElasticJob` fields read by `pod.go`: object name and
namespace (via `GetName`/`GetNamespace`) and the spec. -/
structure ElasticJob where
  name : String
  ns : String
  spec : ElasticJobSpec
deriving DecidableEq

/-- Object metadata, as exposed by `meta.Accessor`: the name and namespace of
an arbitrary Kubernetes object. -/
structure ObjectMeta where
  name : String
  ns : String
deriving DecidableEq

/-- The polymorphic `job interface{}` argument of the public operations.
`elastic` is a `*v1alpha1.ElasticJob`; `otherWithMeta` is any other Kubernetes
object (it fails the `job.(*v1alpha1.ElasticJob)` type assertion but satisfies
`meta.Accessor`); `noMeta` is a value that is not a Kubernetes object at all
(even `meta.Accessor` rejects it). -/
inductive JobArg where
  | elastic (j : ElasticJob)
  | otherWithMeta (m : ObjectMeta)
  | noMeta
deriving DecidableEq

/-- Whether the polymorphic argument passes the `job.(*v1alpha1.ElasticJob)`
type assertion. -/
def JobArg.isElasticJob : JobArg → Bool
  | JobArg.elastic _ => true
  | _ => false

/-- The fields of `corev1.Pod` the controller reads (name and namespace, for
logging); the pod body is otherwise passed through opaquely to the store. -/
structure Pod where
  name : String
  ns : String
deriving DecidableEq

/-- Model of `corev1.PersistentVolumeClaimVolumeSource`: the `ClaimName` field. -/
structure PersistentVolumeClaimVolumeSource where
  claimName : String
deriving DecidableEq

/-- Model of `corev1.Volume`: a name and an optional persistent-volume-claim source
(`v.VolumeSource.PersistentVolumeClaim`, nil-able in Go). -/
structure Volume where
  name : String
  persistentVolumeClaim : Option PersistentVolumeClaimVolumeSource
deriving DecidableEq

/-- The fields of `corev1.Container` relevant to the controller: `Args` is
the one field `InsertTorchArgs` writes; `name`, `image` and `command`
represent the untouched remainder of the container. -/
structure Container where
  name : String
  image : String
  command : List String
  args : List String
deriving DecidableEq

/-- Model of `corev1.PodTemplateSpec`, restricted to the fields `pod.go` touches:
`Spec.Containers` and `Spec.Volumes`. -/
structure PodTemplateSpec where
  containers : List Container
  volumes : List Volume
deriving DecidableEq

/-- Errors surfaced by the controller operations.  `invalidJobType` is the
`fmt.Errorf("%+v is not a type of ElasticJob", ...)` failure of the type
assertion; `accessorError` is a `meta.Accessor` failure; `storeError` and
`oracleErr` carry an opaque upstream error verbatim; `indexOutOfRange` is the
Go runtime panic on `podTemplate.Spec.Containers[0]` for an empty slice. -/
inductive JobError where
  | invalidJobType
  | accessorError
  | storeError (e : String)
  | oracleErr (e : String)
  | indexOutOfRange
deriving DecidableEq

/-- A call issued against the external cluster object store. -/
inductive StoreCall where
  | create (p : Pod)
  | delete (p : Pod)
  | list (ns : String) (labels : List (String × String))
deriving DecidableEq

/-- Index of the last occurrence of `tok` in a list, or `none` when absent:
the backwards scan `for i := len(args)-1; i >= 0; i--` of `InsertTorchArgs`,
and `strings.LastIndex` for single-character needles. -/
def lastIndexOf? {α : Type} [DecidableEq α] (tok : α) : List α → Option Nat
  | [] => none
  | a :: rest =>
    match lastIndexOf? tok rest with
    | some i => some (i + 1)
    | none => if a = tok then some 0 else none

/-- The sentinel argument `InsertTorchArgs` scans for. -/
def distributedLaunchSentinel : String := "torchelastic.distributed.launch"

/-- Model of `InsertTorchArgs` (pod.go:114-131), functionally: the Go code computes
`insertIndex` as one past the last occurrence of the sentinel (`0` when the
sentinel is absent, from the `-1` initialisation) and splices `torchArgs`
into `container.Args` at that position via
`append(args[:insertIndex], append(torchArgs, args[insertIndex:]...)...)`.
We model the argument list directly; the caller updates the container. -/
def insertTorchArgs (args torchArgs : List String) : List String :=
  let insertIndex : Nat :=
    match lastIndexOf? distributedLaunchSentinel args with
    | some i => i + 1
    | none => 0
  args.take insertIndex ++ torchArgs ++ args.drop insertIndex

/-- The claim-name rewrite inside `ModifyVolumeMount` (pod.go:103-110):
skip names not containing `"-"` (`strings.Contains` guard); otherwise
`claimName[:lastIndex] + "-" + index` with `lastIndex := strings.LastIndex
(claimName, "-")`.  The impossible `none` branch after a positive containment
check returns the name unchanged. -/
def reindexClaimName (claimName index : String) : String :=
  if claimName.toList.contains '-' then
    match lastIndexOf? '-' claimName.toList with
    | some lastIndex => String.mk (claimName.toList.take lastIndex) ++ "-" ++ index
    | none => claimName
  else claimName

/-- The per-volume body of `ModifyVolumeMount`'s loop: only volumes whose
`PersistentVolumeClaim` source is non-nil are touched (the write goes through
the shared pointer, so it lands on the template's volume). -/
def reindexVolume (index : String) (v : Volume) : Volume :=
  match v.persistentVolumeClaim with
  | none => v
  | some pvc =>
    let pvc1 := { pvc with claimName := reindexClaimName pvc.claimName index }
    { v with persistentVolumeClaim := some pvc1 }

/-- Model of `ModifyVolumeMount` (pod.go:92-112): early return on an empty volume
list, otherwise rewrite each persistent-volume-claim-backed volume's claim
name for the given replica index. -/
def modifyVolumeMount (podTemplate : PodTemplateSpec) (index : String) :
    PodTemplateSpec :=
  if podTemplate.volumes.length = 0 then podTemplate
  else { podTemplate with volumes := podTemplate.volumes.map (reindexVolume index) }

/-- pod.go:146-150: `minReplicas = *elasticJob.Spec.MinReplicas` when the
pointer is non-nil, else the oracle's `desiredReplicas`. -/
def resolveMinReplicas (elasticJob : ElasticJob) (desiredReplicas : Int) : Int :=
  match elasticJob.spec.minReplicas with
  | some m => m
  | none => desiredReplicas

/-- pod.go:152-156: `maxReplicas = *elasticJob.Spec.MaxReplicas` when the
pointer is non-nil, else the oracle's `desiredReplicas`. -/
def resolveMaxReplicas (elasticJob : ElasticJob) (desiredReplicas : Int) : Int :=
  match elasticJob.spec.maxReplicas with
  | some m => m
  | none => desiredReplicas

/-- Model of `launchDefaultArgs` (pod.go:159-163): the rendezvous launch-argument
block.  `strconv.Itoa(int(n))` is decimal rendering, `toString` on `Int`. -/
def launchDefaultArgs (elasticJob : ElasticJob) (minReplicas maxReplicas : Int) :
    List String :=
  ["--rdzv_backend=etcd",
   "--rdzv_endpoint=" ++ elasticJob.spec.rdzvEndpoint,
   "--rdzv_id=" ++ elasticJob.name,
   "--nnodes=" ++ toString minReplicas ++ ":" ++ toString maxReplicas]

/-- Model of `SetClusterSpecForPod` (pod.go:134-172).  The desired-replica oracle
`computeDesiredReplicas` is an external collaborator, passed as a parameter;
its error is propagated verbatim (wrapped in the `oracleErr` constructor only
to unify the error type).  The Go function mutates `podTemplate` in place and
returns an `error`; we return the pair (returned error, final template
state).  `&podTemplate.Spec.Containers[0]` on an empty container slice is a
runtime index-out-of-range panic, modelled as the `indexOutOfRange` outcome
with the template untouched (the panic fires before any write). -/
def SetClusterSpecForPod (computeDesiredReplicas : ElasticJob → Except String Int)
    (job : JobArg) (podTemplate : PodTemplateSpec) (index : String) :
    Except JobError Unit × PodTemplateSpec :=
  match job with
  | JobArg.elastic elasticJob =>
    match computeDesiredReplicas elasticJob with
    | Except.error err => (Except.error (JobError.oracleErr err), podTemplate)
    | Except.ok desiredReplicas =>
      let minReplicas := resolveMinReplicas elasticJob desiredReplicas
      let maxReplicas := resolveMaxReplicas elasticJob desiredReplicas
      match podTemplate.containers with
      | [] => (Except.error JobError.indexOutOfRange, podTemplate)
      | container :: sidecars =>
        let newArgs :=
          insertTorchArgs container.args
            (launchDefaultArgs elasticJob minReplicas maxReplicas)
        let container1 := { container with args := newArgs }
        let podTemplate1 := { podTemplate with containers := container1 :: sidecars }
        (Except.ok (), modifyVolumeMount podTemplate1 index)
  | _ => (Except.error JobError.invalidJobType, podTemplate)

/-- Model of `meta.Accessor` on the polymorphic argument: succeeds with the object's
metadata for any Kubernetes object, fails only for a value that carries no
object metadata. -/
def metaAccessor : JobArg → Except JobError ObjectMeta
  | JobArg.elastic j => Except.ok { name := j.name, ns := j.ns }
  | JobArg.otherWithMeta m => Except.ok m
  | JobArg.noMeta => Except.error JobError.accessorError

/-- Model of `convertPodList` (pod.go:81-90): builds the pointer list by appending
`&list[i]` in index order (Go's nil-in/nil-out distinction collapses in the
list model). -/
def convertPodList (list : List Pod) : List Pod :=
  list.foldl (fun ret p => ret ++ [p]) []

/-- Model of `GetPodsForJob` (pod.go:64-78).  `GenLabels` (kubeflow common) and the
store's `List` are external collaborators, passed as parameters.  Returns the
pair (result, store calls issued). -/
def GetPodsForJob (genLabels : String → List (String × String))
    (listStore : String → List (String × String) → Except String (List Pod))
    (obj : JobArg) : Except JobError (List Pod) × List StoreCall :=
  match metaAccessor obj with
  | Except.error e => (Except.error e, [])
  | Except.ok job =>
    match listStore job.ns (genLabels job.name) with
    | Except.error e =>
      (Except.error (JobError.storeError e), [StoreCall.list job.ns (genLabels job.name)])
    | Except.ok items =>
      (Except.ok (convertPodList items), [StoreCall.list job.ns (genLabels job.name)])

/-- Model of `CreatePod` (pod.go:26-41): type-assert the job, then request creation
against the store, propagating the store's error unmodified.  Logging is a
fire-and-forget side channel, not modelled.  Returns the pair
(result, store calls issued). -/
def CreatePod (createStore : Pod → Except String Unit) (job : JobArg)
    (pod : Pod) : Except JobError Unit × List StoreCall :=
  match job with
  | JobArg.elastic _ =>
    match createStore pod with
    | Except.error e => (Except.error (JobError.storeError e), [StoreCall.create pod])
    | Except.ok _ => (Except.ok (), [StoreCall.create pod])
  | _ => (Except.error JobError.invalidJobType, [])

/-- Model of `DeletePod` (pod.go:44-61): type-assert the job, then request deletion
against the store, propagating the store's error unmodified.  The
warning/normal event emissions are fire-and-forget against the event sink,
not the object store, and are not modelled.  Returns the pair
(result, store calls issued). -/
def DeletePod (deleteStore : Pod → Except String Unit) (job : JobArg)
    (pod : Pod) : Except JobError Unit × List StoreCall :=
  match job with
  | JobArg.elastic _ =>
    match deleteStore pod with
    | Except.error e => (Except.error (JobError.storeError e), [StoreCall.delete pod])
    | Except.ok _ => (Except.ok (), [StoreCall.delete pod])
  | _ => (Except.error JobError.invalidJobType, [])

theorem lastIndexOf?_eq_none_iff {α : Type} [DecidableEq α] (tok : α)
    (l : List α) : lastIndexOf? tok l = none ↔ tok ∉ l := by
  induction l with
  | nil => simp [lastIndexOf?]
  | cons a rest ih =>
    simp only [lastIndexOf?]
    cases hrest : lastIndexOf? tok rest with
    | some i =>
      simp only [reduceCtorEq, false_iff]
      intro hmem
      have hin : tok ∈ rest := by
        by_contra hnot
        have := ih.mpr hnot
        rw [hrest] at this
        exact Option.noConfusion this
      exact hmem (List.mem_cons_of_mem a hin)
    | none =>
      have hnot : tok ∉ rest := ih.mp hrest
      by_cases ha : a = tok
      · subst ha
        simp [List.mem_cons]
      · rw [if_neg ha]
        constructor
        · intro _ hmem
          rcases List.mem_cons.mp hmem with h1 | h2
          · exact ha h1.symm
          · exact hnot h2
        · intro _
          rfl

theorem lastIndexOf?_spec {α : Type} [DecidableEq α] {tok : α} {l : List α}
    {i : Nat} (h : lastIndexOf? tok l = some i) :
    l.get? i = some tok ∧ ∀ j, i < j → l.get? j ≠ some tok := by
  induction l generalizing i with
  | nil => exact Option.noConfusion h
  | cons a rest ih =>
    simp only [lastIndexOf?] at h
    cases hrest : lastIndexOf? tok rest with
    | some k =>
      rw [hrest] at h
      have hik : i = k + 1 := (Option.some_injective _ h).symm
      subst hik
      obtain ⟨hget, hafter⟩ := ih hrest
      refine ⟨hget, ?_⟩
      intro j hj
      cases j with
      | zero => omega
      | succ j =>
        simpa using hafter j (by omega)
    | none =>
      rw [hrest] at h
      have hnot : tok ∉ rest := (lastIndexOf?_eq_none_iff tok rest).mp hrest
      by_cases ha : a = tok
      · rw [if_pos ha] at h
        have hi0 : i = 0 := (Option.some_injective _ h).symm
        subst hi0
        refine ⟨by simpa using ha, ?_⟩
        intro j hj
        cases j with
        | zero => omega
        | succ j =>
          simp only [List.get?_cons_succ]
          intro hcontra
          exact hnot (List.get?_mem hcontra)
      · rw [if_neg ha] at h
        exact Option.noConfusion h

theorem lastIndexOf?_ge_of_mem {α : Type} [DecidableEq α] {tok : α}
    {l : List α} {i : Nat} (h : l.get? i = some tok) :
    ∃ k, i ≤ k ∧ lastIndexOf? tok l = some k := by
  induction l generalizing i with
  | nil => simp at h
  | cons a rest ih =>
    cases i with
    | zero =>
      simp only [List.get?_cons_zero, Option.some_inj] at h
      simp only [lastIndexOf?]
      cases hrest : lastIndexOf? tok rest with
      | some k => exact ⟨k + 1, by omega, rfl⟩
      | none => exact ⟨0, le_refl 0, by rw [if_pos h]⟩
    | succ i =>
      simp only [List.get?_cons_succ] at h
      obtain ⟨k, hik, hk⟩ := ih h
      refine ⟨k + 1, by omega, ?_⟩
      simp only [lastIndexOf?, hk]

/-! ## Helper lemmas -/

theorem insertTorchArgs_splice (args block : List String) :
    ∃ k, insertTorchArgs args block = args.take k ++ block ++ args.drop k := by
  unfold insertTorchArgs
  exact ⟨_, rfl⟩

theorem insertTorchArgs_length (args block : List String) :
    (insertTorchArgs args block).length = args.length + block.length := by
  obtain ⟨k, hk⟩ := insertTorchArgs_splice args block
  have hsplit := congrArg List.length (List.take_append_drop k args)
  rw [hk]
  simp only [List.length_append] at hsplit ⊢
  omega

theorem insertTorchArgs_count (args block : List String) (e : String) :
    (insertTorchArgs args block).count e = args.count e + block.count e := by
  obtain ⟨k, hk⟩ := insertTorchArgs_splice args block
  have hsplit := congrArg (List.count e) (List.take_append_drop k args)
  rw [hk]
  simp only [List.count_append] at hsplit ⊢
  omega

theorem modifyVolumeMount_containers (t : PodTemplateSpec) (index : String) :
    (modifyVolumeMount t index).containers = t.containers := by
  unfold modifyVolumeMount
  split <;> rfl

theorem convertPodList_eq (l : List Pod) : convertPodList l = l := by
  have haux : ∀ (l1 acc : List Pod),
      List.foldl (fun ret p => ret ++ [p]) acc l1 = acc ++ l1 := by
    intro l1
    induction l1 with
    | nil => intro acc; simp
    | cons p rest ih =>
      intro acc
      simp only [List.foldl_cons, ih, List.append_assoc, List.singleton_append]
  simpa using haux l []

/-! ## Claim theorems -/

/-- C2: `InsertTorchArgs` returns `args` with `block` spliced in right after
the last (rightmost) occurrence of the sentinel
`"torchelastic.distributed.launch"`; when the sentinel is absent the block is
prepended.  In both cases the result is a take/block/drop splice, so every
original element of `args` and every element of `block` keeps its supplied
relative order. -/
theorem insertTorchArgs_inserts_after_last_sentinel (args block : List String) :
    (∀ i, args.get? i = some distributedLaunchSentinel →
      (∀ j, i < j → args.get? j ≠ some distributedLaunchSentinel) →
      insertTorchArgs args block = args.take (i + 1) ++ block ++ args.drop (i + 1)) ∧
    (distributedLaunchSentinel ∉ args →
      insertTorchArgs args block = block ++ args) := by
  constructor
  · intro i hget hlast
    cases hfind : lastIndexOf? distributedLaunchSentinel args with
    | none =>
      exact absurd (List.get?_mem hget)
        ((lastIndexOf?_eq_none_iff distributedLaunchSentinel args).mp hfind)
    | some k =>
      obtain ⟨hk, hkafter⟩ := lastIndexOf?_spec hfind
      have hki : k = i := by
        rcases Nat.lt_trichotomy k i with h | h | h
        · exact absurd hget (hkafter i h)
        · exact h
        · exact absurd hk (hlast k h)
      subst hki
      simp [insertTorchArgs, hfind]
  · intro hnot
    have hfind := (lastIndexOf?_eq_none_iff distributedLaunchSentinel args).mpr hnot
    simp [insertTorchArgs, hfind]

/-- Witness for C2: both branches at concrete inputs — last sentinel at
position 2 of a four-element list, and a sentinel-free list. -/
theorem insertTorchArgs_inserts_after_last_sentinel_witness :
    insertTorchArgs ["python", "-m", "torchelastic.distributed.launch", "s.py"]
        ["--x", "--y"]
      = ["python", "-m", "torchelastic.distributed.launch", "s.py"].take 3
          ++ ["--x", "--y"]
          ++ ["python", "-m", "torchelastic.distributed.launch", "s.py"].drop 3
    ∧ insertTorchArgs ["run.py"] ["--x"] = ["--x"] ++ ["run.py"] := by
  have hfind : lastIndexOf? distributedLaunchSentinel
      ["python", "-m", "torchelastic.distributed.launch", "s.py"] = some 2 := by
    decide
  obtain ⟨hget, hafter⟩ := lastIndexOf?_spec hfind
  exact ⟨(insertTorchArgs_inserts_after_last_sentinel _ _).1 2 hget hafter,
    (insertTorchArgs_inserts_after_last_sentinel _ _).2 (by decide)⟩

/-- C5: injection is not idempotent — a second application inserts the block
again, so the element counts grow by the block a second time, the length is
the original length plus twice the block length, and for a non-empty block
the double application differs from the single one. -/
theorem insertTorchArgs_not_idempotent (args block : List String)
    (h : block ≠ []) :
    (insertTorchArgs (insertTorchArgs args block) block).length
        = args.length + 2 * block.length
    ∧ (∀ e, (insertTorchArgs (insertTorchArgs args block) block).count e
        = args.count e + 2 * block.count e)
    ∧ insertTorchArgs (insertTorchArgs args block) block
        ≠ insertTorchArgs args block := by
  refine ⟨?_, ?_, ?_⟩
  · rw [insertTorchArgs_length, insertTorchArgs_length]
    omega
  · intro e
    rw [insertTorchArgs_count, insertTorchArgs_count]
    omega
  · intro heq
    have hlen := congrArg List.length heq
    rw [insertTorchArgs_length, insertTorchArgs_length] at hlen
    have hpos : 0 < block.length := List.length_pos.mpr h
    omega

/-- Witness for C5 at a concrete list and block. -/
theorem insertTorchArgs_not_idempotent_witness :
    (insertTorchArgs (insertTorchArgs ["run.py"] ["--x", "--y"]) ["--x", "--y"]).length
        = 1 + 2 * 2
    ∧ insertTorchArgs (insertTorchArgs ["run.py"] ["--x", "--y"]) ["--x", "--y"]
        ≠ insertTorchArgs ["run.py"] ["--x", "--y"] := by
  have h := insertTorchArgs_not_idempotent ["run.py"] ["--x", "--y"] (by decide)
  exact ⟨h.1, h.2.2⟩

theorem reindexClaimName_no_dash (claimName index : String)
    (h : claimName.toList.contains '-' = false) :
    reindexClaimName claimName index = claimName := by
  unfold reindexClaimName
  rw [if_neg]
  intro hc
  rw [h] at hc
  exact Bool.noConfusion hc

theorem reindexClaimName_last_dash (claimName index : String) (k : Nat)
    (h : lastIndexOf? '-' claimName.toList = some k) :
    reindexClaimName claimName index
      = String.mk (claimName.toList.take (k + 1)) ++ index := by
  have hget : claimName.toList.get? k = some '-' := (lastIndexOf?_spec h).1
  have hcont : claimName.toList.contains '-' = true :=
    List.elem_eq_true_of_mem (List.get?_mem hget)
  have htake : claimName.toList.take (k + 1) = claimName.toList.take k ++ ['-'] := by
    rw [List.take_succ, ← List.get?_eq_getElem?, hget]
    rfl
  rw [reindexClaimName, if_pos hcont, h, htake]
  rfl

/-- C3: resolved minimum is the explicit `minReplicas` when set, otherwise
the oracle's `desiredReplicas`; symmetrically for the maximum; a job with
neither bound set resolves to `(desiredReplicas, desiredReplicas)`. -/
theorem replicaRange_resolution (computeDesiredReplicas : ElasticJob → Except String Int)
    (j : ElasticJob) (d : Int) (_hor : computeDesiredReplicas j = Except.ok d) :
    (∀ m, j.spec.minReplicas = some m → resolveMinReplicas j d = m)
    ∧ (j.spec.minReplicas = none → resolveMinReplicas j d = d)
    ∧ (∀ m, j.spec.maxReplicas = some m → resolveMaxReplicas j d = m)
    ∧ (j.spec.maxReplicas = none → resolveMaxReplicas j d = d)
    ∧ (j.spec.minReplicas = none → j.spec.maxReplicas = none →
        (resolveMinReplicas j d, resolveMaxReplicas j d) = (d, d)) := by
  refine ⟨?_, ?_, ?_, ?_, ?_⟩
  · intro m hm
    simp [resolveMinReplicas, hm]
  · intro hm
    simp [resolveMinReplicas, hm]
  · intro m hm
    simp [resolveMaxReplicas, hm]
  · intro hm
    simp [resolveMaxReplicas, hm]
  · intro hmin hmax
    simp [resolveMinReplicas, resolveMaxReplicas, hmin, hmax]

/-- Witness for C3: the spec's worked example — explicit `minReplicas = 2`,
oracle returning `4`, no explicit max, resolves to `(2, 4)`. -/
theorem replicaRange_resolution_witness :
    resolveMinReplicas ⟨"job1", "ns1", ⟨"etcd:2379", some 2, none⟩⟩ 4 = 2
    ∧ resolveMaxReplicas ⟨"job1", "ns1", ⟨"etcd:2379", some 2, none⟩⟩ 4 = 4 := by
  have h := replicaRange_resolution (fun _ => Except.ok 4)
    ⟨"job1", "ns1", ⟨"etcd:2379", some 2, none⟩⟩ 4 rfl
  exact ⟨h.1 2 rfl, h.2.2.2.1 rfl⟩

/-- C4: `ModifyVolumeMount` leaves the volume count unchanged and rewrites
exactly the persistent-volume-claim-backed volumes: a claim name with no
`'-'` separator is untouched, a claim name whose last separator sits at
position `k` becomes the prefix up to and including that separator followed
by `index`, and a volume without a claim source is returned verbatim;
`"model-data-0"` with index `"3"` becomes `"model-data-3"` while `"shared"`
stays `"shared"`. -/
theorem modifyVolumeMount_reindexes_claims (t : PodTemplateSpec) (index : String) :
    ((modifyVolumeMount t index).volumes.length = t.volumes.length)
    ∧ (∀ i v, t.volumes.get? i = some v →
        (v.persistentVolumeClaim = none →
          (modifyVolumeMount t index).volumes.get? i = some v)
        ∧ (∀ pvc, v.persistentVolumeClaim = some pvc →
            pvc.claimName.toList.contains '-' = false →
            (modifyVolumeMount t index).volumes.get? i = some v)
        ∧ (∀ pvc k, v.persistentVolumeClaim = some pvc →
            lastIndexOf? '-' pvc.claimName.toList = some k →
            (modifyVolumeMount t index).volumes.get? i
              = some { v with persistentVolumeClaim := some ⟨String.mk (pvc.claimName.toList.take (k + 1)) ++ index⟩ }))
    ∧ reindexClaimName "model-data-0" "3" = "model-data-3"
    ∧ reindexClaimName "shared" "3" = "shared" := by
  refine ⟨?_, ?_, by decide, by decide⟩
  · unfold modifyVolumeMount
    split
    · rfl
    · simp
  · intro i v hv
    by_cases hlen : t.volumes.length = 0
    · rw [List.length_eq_zero] at hlen
      rw [hlen] at hv
      exact absurd hv (by simp)
    · have hmap : (modifyVolumeMount t index).volumes.get? i
          = some (reindexVolume index v) := by
        unfold modifyVolumeMount
        rw [if_neg hlen]
        rw [List.get?_eq_getElem?, List.getElem?_map, ← List.get?_eq_getElem?, hv]
        rfl
      obtain ⟨vname, vpvc⟩ := v
      refine ⟨?_, ?_, ?_⟩
      · intro hpvc
        rw [hmap]
        simp only at hpvc
        subst hpvc
        rfl
      · intro pvc hpvc hcont
        obtain ⟨cn⟩ := pvc
        simp only at hpvc
        subst hpvc
        rw [hmap]
        simp only [reindexVolume, reindexClaimName_no_dash cn index hcont]
      · intro pvc k hpvc hlast
        obtain ⟨cn⟩ := pvc
        simp only at hpvc
        subst hpvc
        rw [hmap]
        simp only [reindexVolume, reindexClaimName_last_dash cn index k hlast]

/-- Witness for C4: the no-claim, no-dash and reindex branches at concrete
volumes of one template. -/
theorem modifyVolumeMount_reindexes_claims_witness :
    (modifyVolumeMount ⟨[], [⟨"v0", some ⟨"model-data-0"⟩⟩, ⟨"v1", some ⟨"shared"⟩⟩, ⟨"v2", none⟩]⟩ "3").volumes.get? 0
      = some ⟨"v0", some ⟨String.mk ("model-data-0".toList.take (10 + 1)) ++ "3"⟩⟩
    ∧ (modifyVolumeMount ⟨[], [⟨"v0", some ⟨"model-data-0"⟩⟩, ⟨"v1", some ⟨"shared"⟩⟩, ⟨"v2", none⟩]⟩ "3").volumes.get? 1
      = some ⟨"v1", some ⟨"shared"⟩⟩
    ∧ (modifyVolumeMount ⟨[], [⟨"v0", some ⟨"model-data-0"⟩⟩, ⟨"v1", some ⟨"shared"⟩⟩, ⟨"v2", none⟩]⟩ "3").volumes.get? 2
      = some ⟨"v2", none⟩ := by
  have h := (modifyVolumeMount_reindexes_claims
    ⟨[], [⟨"v0", some ⟨"model-data-0"⟩⟩, ⟨"v1", some ⟨"shared"⟩⟩, ⟨"v2", none⟩]⟩ "3").2.1
  refine ⟨?_, ?_, ?_⟩
  · exact (h 0 ⟨"v0", some ⟨"model-data-0"⟩⟩ rfl).2.2 ⟨"model-data-0"⟩ 10 rfl (by decide)
  · exact (h 1 ⟨"v1", some ⟨"shared"⟩⟩ rfl).2.1 ⟨"shared"⟩ rfl (by decide)
  · exact (h 2 ⟨"v2", none⟩ rfl).1 rfl

theorem setClusterSpec_ok_reduction (computeDesiredReplicas : ElasticJob → Except String Int)
    (j : ElasticJob) (d : Int) (c : Container) (rest : List Container)
    (vols : List Volume) (index : String)
    (hor : computeDesiredReplicas j = Except.ok d) :
    SetClusterSpecForPod computeDesiredReplicas (JobArg.elastic j) ⟨c :: rest, vols⟩ index
      = (Except.ok (), modifyVolumeMount
          ⟨{ c with args := insertTorchArgs c.args (launchDefaultArgs j (resolveMinReplicas j d) (resolveMaxReplicas j d)) } :: rest, vols⟩ index) := by
  simp [SetClusterSpecForPod, hor]

/-- C6: on the successful path the injected launch-argument block is exactly
the four strings `--rdzv_backend=etcd`, `--rdzv_endpoint=` + the job's
rendezvous endpoint, `--rdzv_id=` + the job's name, and `--nnodes=` +
resolved min + `:` + resolved max, in that order. -/
theorem setClusterSpec_launch_block (computeDesiredReplicas : ElasticJob → Except String Int)
    (j : ElasticJob) (d : Int) (c : Container) (rest : List Container)
    (vols : List Volume) (index : String)
    (hor : computeDesiredReplicas j = Except.ok d) :
    (SetClusterSpecForPod computeDesiredReplicas (JobArg.elastic j) ⟨c :: rest, vols⟩ index).2.containers.head?
      = some { c with args := insertTorchArgs c.args ["--rdzv_backend=etcd", "--rdzv_endpoint=" ++ j.spec.rdzvEndpoint, "--rdzv_id=" ++ j.name, "--nnodes=" ++ toString (resolveMinReplicas j d) ++ ":" ++ toString (resolveMaxReplicas j d)] } := by
  rw [setClusterSpec_ok_reduction computeDesiredReplicas j d c rest vols index hor]
  simp only [modifyVolumeMount_containers, launchDefaultArgs]
  rfl

/-- Witness for C6 at a concrete job, oracle and template. -/
theorem setClusterSpec_launch_block_witness :
    (SetClusterSpecForPod (fun _ => Except.ok 4)
        (JobArg.elastic ⟨"job1", "ns1", ⟨"etcd:2379", some 2, none⟩⟩)
        ⟨[⟨"main", "img", ["python"], ["run.py"]⟩], []⟩ "0").2.containers.head?
      = some { name := "main", image := "img", command := ["python"], args := insertTorchArgs ["run.py"] ["--rdzv_backend=etcd", "--rdzv_endpoint=" ++ "etcd:2379", "--rdzv_id=" ++ "job1", "--nnodes=" ++ toString (2 : Int) ++ ":" ++ toString (4 : Int)] } :=
  setClusterSpec_launch_block (fun _ => Except.ok 4)
    ⟨"job1", "ns1", ⟨"etcd:2379", some 2, none⟩⟩ 4
    ⟨"main", "img", ["python"], ["run.py"]⟩ [] [] "0" rfl

/-- C7: a successful `SetClusterSpecForPod` touches only the first
container's argument list — the call succeeds, the container count is kept,
every container at index 1 or greater is returned unchanged, and the first
container's name, image and command are unchanged. -/
theorem setClusterSpec_only_first_container (computeDesiredReplicas : ElasticJob → Except String Int)
    (j : ElasticJob) (d : Int) (c : Container) (rest : List Container)
    (vols : List Volume) (index : String)
    (hor : computeDesiredReplicas j = Except.ok d) :
    ((SetClusterSpecForPod computeDesiredReplicas (JobArg.elastic j) ⟨c :: rest, vols⟩ index).1 = Except.ok ())
    ∧ ((SetClusterSpecForPod computeDesiredReplicas (JobArg.elastic j) ⟨c :: rest, vols⟩ index).2.containers.length = (c :: rest).length)
    ∧ (∀ i, 1 ≤ i →
        (SetClusterSpecForPod computeDesiredReplicas (JobArg.elastic j) ⟨c :: rest, vols⟩ index).2.containers.get? i
          = (c :: rest).get? i)
    ∧ (∀ c1, (SetClusterSpecForPod computeDesiredReplicas (JobArg.elastic j) ⟨c :: rest, vols⟩ index).2.containers.head? = some c1 →
        c1.name = c.name ∧ c1.image = c.image ∧ c1.command = c.command) := by
  rw [setClusterSpec_ok_reduction computeDesiredReplicas j d c rest vols index hor]
  simp only [modifyVolumeMount_containers]
  refine ⟨by simp, by simp, ?_, ?_⟩
  · intro i hi
    cases i with
    | zero => omega
    | succ i => rfl
  · intro c1 hc1
    simp only [List.head?_cons, Option.some_inj] at hc1
    subst hc1
    exact ⟨rfl, rfl, rfl⟩

/-- Witness for C7 with one sidecar. -/
theorem setClusterSpec_only_first_container_witness :
    ((SetClusterSpecForPod (fun _ => Except.ok 3)
        (JobArg.elastic ⟨"job1", "ns1", ⟨"e", none, none⟩⟩)
        ⟨[⟨"main", "i1", [], ["run.py"]⟩, ⟨"sidecar", "i2", [], ["tail"]⟩], []⟩ "0").1 = Except.ok ())
    ∧ ((SetClusterSpecForPod (fun _ => Except.ok 3)
        (JobArg.elastic ⟨"job1", "ns1", ⟨"e", none, none⟩⟩)
        ⟨[⟨"main", "i1", [], ["run.py"]⟩, ⟨"sidecar", "i2", [], ["tail"]⟩], []⟩ "0").2.containers.get? 1
      = some ⟨"sidecar", "i2", [], ["tail"]⟩) := by
  have h := setClusterSpec_only_first_container (fun _ => Except.ok 3)
    ⟨"job1", "ns1", ⟨"e", none, none⟩⟩ 3
    ⟨"main", "i1", [], ["run.py"]⟩ [⟨"sidecar", "i2", [], ["tail"]⟩] [] "0" rfl
  exact ⟨h.1, h.2.2.1 1 (by omega)⟩

/-- C9: `SetClusterSpecForPod` reads the container at index 0 with no
emptiness guard — with a non-empty container list the access is in bounds
and the call succeeds, while for an empty container list (elastic job,
successful oracle) the index-out-of-range outcome is reached with the
template untouched. -/
theorem setClusterSpec_first_container_access (computeDesiredReplicas : ElasticJob → Except String Int)
    (j : ElasticJob) (d : Int) (t : PodTemplateSpec) (index : String)
    (hor : computeDesiredReplicas j = Except.ok d) :
    (t.containers ≠ [] →
      (SetClusterSpecForPod computeDesiredReplicas (JobArg.elastic j) t index).1 = Except.ok ())
    ∧ (t.containers = [] →
      SetClusterSpecForPod computeDesiredReplicas (JobArg.elastic j) t index
        = (Except.error JobError.indexOutOfRange, t)) := by
  obtain ⟨cs, vols⟩ := t
  cases cs with
  | nil =>
    refine ⟨fun hne => absurd rfl hne, fun _ => ?_⟩
    simp [SetClusterSpecForPod, hor]
  | cons c rest =>
    refine ⟨fun _ => ?_, fun heq => List.noConfusion heq⟩
    rw [setClusterSpec_ok_reduction computeDesiredReplicas j d c rest vols index hor]

/-- Witness for C9: both the in-bounds and the out-of-bounds branch at
concrete templates. -/
theorem setClusterSpec_first_container_access_witness :
    ((SetClusterSpecForPod (fun _ => Except.ok 2)
        (JobArg.elastic ⟨"j", "n", ⟨"e", none, none⟩⟩)
        ⟨[⟨"main", "i", [], []⟩], []⟩ "0").1 = Except.ok ())
    ∧ (SetClusterSpecForPod (fun _ => Except.ok 2)
        (JobArg.elastic ⟨"j", "n", ⟨"e", none, none⟩⟩)
        ⟨[], [⟨"v", none⟩]⟩ "0"
      = (Except.error JobError.indexOutOfRange, ⟨[], [⟨"v", none⟩]⟩)) := by
  constructor
  · exact (setClusterSpec_first_container_access (fun _ => Except.ok 2)
      ⟨"j", "n", ⟨"e", none, none⟩⟩ 2 ⟨[⟨"main", "i", [], []⟩], []⟩ "0" rfl).1
      (by simp)
  · exact (setClusterSpec_first_container_access (fun _ => Except.ok 2)
      ⟨"j", "n", ⟨"e", none, none⟩⟩ 2 ⟨[], [⟨"v", none⟩]⟩ "0" rfl).2 rfl

/-- C10: when the desired-replica oracle fails, `SetClusterSpecForPod`
returns that error verbatim and the template is completely unchanged — no
arguments injected, no claim names rewritten. -/
theorem setClusterSpec_oracle_error_atomic (computeDesiredReplicas : ElasticJob → Except String Int)
    (j : ElasticJob) (t : PodTemplateSpec) (index : String) (e : String)
    (hor : computeDesiredReplicas j = Except.error e) :
    SetClusterSpecForPod computeDesiredReplicas (JobArg.elastic j) t index
      = (Except.error (JobError.oracleErr e), t) := by
  simp [SetClusterSpecForPod, hor]

/-- Witness for C10 at a concrete failing oracle. -/
theorem setClusterSpec_oracle_error_atomic_witness :
    SetClusterSpecForPod (fun _ => Except.error "etcd unreachable")
        (JobArg.elastic ⟨"j", "n", ⟨"e", none, none⟩⟩)
        ⟨[⟨"main", "i", [], ["run.py"]⟩], [⟨"v", some ⟨"data-0"⟩⟩]⟩ "7"
      = (Except.error (JobError.oracleErr "etcd unreachable"),
          ⟨[⟨"main", "i", [], ["run.py"]⟩], [⟨"v", some ⟨"data-0"⟩⟩]⟩) :=
  setClusterSpec_oracle_error_atomic (fun _ => Except.error "etcd unreachable")
    ⟨"j", "n", ⟨"e", none, none⟩⟩
    ⟨[⟨"main", "i", [], ["run.py"]⟩], [⟨"v", some ⟨"data-0"⟩⟩]⟩ "7"
    "etcd unreachable" rfl

/-- C8: when the job's metadata can be introspected and the store's list
call succeeds with no matching pods, `GetPodsForJob` returns an empty
sequence and no error; when pods do match, it returns exactly the store's
sequence, preserving its order. -/
theorem getPodsForJob_empty_and_order (genLabels : String → List (String × String))
    (listStore : String → List (String × String) → Except String (List Pod))
    (obj : JobArg) (m : ObjectMeta) (hm : metaAccessor obj = Except.ok m) :
    (listStore m.ns (genLabels m.name) = Except.ok [] →
      GetPodsForJob genLabels listStore obj
        = (Except.ok [], [StoreCall.list m.ns (genLabels m.name)]))
    ∧ (∀ pods, listStore m.ns (genLabels m.name) = Except.ok pods →
      (GetPodsForJob genLabels listStore obj).1 = Except.ok pods) := by
  constructor
  · intro hls
    simp [GetPodsForJob, hm, hls, convertPodList_eq]
  · intro pods hls
    simp [GetPodsForJob, hm, hls, convertPodList_eq]

/-- Witness for C8: an empty store answer and a two-pod store answer at a
concrete job. -/
theorem getPodsForJob_empty_and_order_witness :
    GetPodsForJob (fun n => [("job-name", n)]) (fun _ _ => Except.ok [])
        (JobArg.elastic ⟨"j", "n", ⟨"e", none, none⟩⟩)
      = (Except.ok [], [StoreCall.list "n" [("job-name", "j")]])
    ∧ (GetPodsForJob (fun n => [("job-name", n)])
        (fun _ _ => Except.ok [⟨"p1", "n"⟩, ⟨"p2", "n"⟩])
        (JobArg.elastic ⟨"j", "n", ⟨"e", none, none⟩⟩)).1
      = Except.ok [⟨"p1", "n"⟩, ⟨"p2", "n"⟩] := by
  constructor
  · exact (getPodsForJob_empty_and_order (fun n => [("job-name", n)])
      (fun _ _ => Except.ok []) (JobArg.elastic ⟨"j", "n", ⟨"e", none, none⟩⟩)
      ⟨"j", "n"⟩ rfl).1 rfl
  · exact (getPodsForJob_empty_and_order (fun n => [("job-name", n)])
      (fun _ _ => Except.ok [⟨"p1", "n"⟩, ⟨"p2", "n"⟩])
      (JobArg.elastic ⟨"j", "n", ⟨"e", none, none⟩⟩)
      ⟨"j", "n"⟩ rfl).2 [⟨"p1", "n"⟩, ⟨"p2", "n"⟩] rfl

/-- Counterexample to C1 as stated: `GetPodsForJob` invoked with a non-job
object that carries object metadata does not fail with `InvalidJobType` and
does issue a list call against the store. -/
theorem getPodsForJob_non_job_issues_list_cex :
    (GetPodsForJob (fun n => [("job-name", n)]) (fun _ _ => Except.ok [])
        (JobArg.otherWithMeta ⟨"other", "ns1"⟩)).1
      ≠ Except.error JobError.invalidJobType
    ∧ (GetPodsForJob (fun n => [("job-name", n)]) (fun _ _ => Except.ok [])
        (JobArg.otherWithMeta ⟨"other", "ns1"⟩)).2
      = [StoreCall.list "ns1" [("job-name", "other")]] := by
  constructor
  · intro h
    exact Except.noConfusion h
  · rfl

/-- C1 amended: `CreatePod`, `DeletePod` and `SetClusterSpecForPod` fail
with `InvalidJobType` on any argument that is not an `ElasticJob` and issue
no store call (and leave the template untouched); `GetPodsForJob` instead
introspects the argument with a metadata accessor — it fails (with the
accessor's error, issuing no list call) only when the argument carries no
object metadata, and it issues the list call, never failing with
`InvalidJobType`, for any metadata-bearing argument even when that argument
is not an `ElasticJob`. -/
theorem typeGuard_per_operation (createStore : Pod → Except String Unit)
    (deleteStore : Pod → Except String Unit)
    (genLabels : String → List (String × String))
    (listStore : String → List (String × String) → Except String (List Pod))
    (computeDesiredReplicas : ElasticJob → Except String Int) :
    (∀ arg pod, arg.isElasticJob = false →
      CreatePod createStore arg pod = (Except.error JobError.invalidJobType, [])
      ∧ DeletePod deleteStore arg pod = (Except.error JobError.invalidJobType, []))
    ∧ (∀ arg t index, arg.isElasticJob = false →
      SetClusterSpecForPod computeDesiredReplicas arg t index
        = (Except.error JobError.invalidJobType, t))
    ∧ (GetPodsForJob genLabels listStore JobArg.noMeta
        = (Except.error JobError.accessorError, []))
    ∧ (∀ m, (GetPodsForJob genLabels listStore (JobArg.otherWithMeta m)).2
          = [StoreCall.list m.ns (genLabels m.name)]
        ∧ (GetPodsForJob genLabels listStore (JobArg.otherWithMeta m)).1
          ≠ Except.error JobError.invalidJobType) := by
  refine ⟨?_, ?_, rfl, ?_⟩
  · intro arg pod hne
    cases arg with
    | elastic j => exact absurd hne (by simp [JobArg.isElasticJob])
    | otherWithMeta m => exact ⟨rfl, rfl⟩
    | noMeta => exact ⟨rfl, rfl⟩
  · intro arg t index hne
    cases arg with
    | elastic j => exact absurd hne (by simp [JobArg.isElasticJob])
    | otherWithMeta m => rfl
    | noMeta => rfl
  · intro m
    constructor
    · cases hls : listStore m.ns (genLabels m.name) with
      | error e => simp [GetPodsForJob, metaAccessor, hls]
      | ok pods => simp [GetPodsForJob, metaAccessor, hls]
    · cases hls : listStore m.ns (genLabels m.name) with
      | error e => simp [GetPodsForJob, metaAccessor, hls]
      | ok pods => simp [GetPodsForJob, metaAccessor, hls]

/-- Witness for the amended C1 at concrete stores, arguments and pods. -/
theorem typeGuard_per_operation_witness :
    CreatePod (fun _ => Except.ok ()) JobArg.noMeta ⟨"p", "n"⟩
      = (Except.error JobError.invalidJobType, [])
    ∧ SetClusterSpecForPod (fun _ => Except.ok 1) JobArg.noMeta ⟨[], []⟩ "0"
      = (Except.error JobError.invalidJobType, ⟨[], []⟩)
    ∧ (GetPodsForJob (fun n => [("job-name", n)]) (fun _ _ => Except.ok [])
        (JobArg.otherWithMeta ⟨"o", "ns"⟩)).2
      = [StoreCall.list "ns" [("job-name", "o")]] := by
  have h := typeGuard_per_operation (fun _ => Except.ok ()) (fun _ => Except.ok ())
    (fun n => [("job-name", n)]) (fun _ _ => Except.ok []) (fun _ => Except.ok 1)
  exact ⟨(h.1 JobArg.noMeta ⟨"p", "n"⟩ rfl).1,
    h.2.1 JobArg.noMeta ⟨[], []⟩ "0" rfl,
    (h.2.2.2 ⟨"o", "ns"⟩).1⟩

end Elastic
